import Mathlib

set_option maxRecDepth 100000

/-!
# Verification of `ds_store_parser` (`src/main.rs`)

Shallow embedding of the Rust `.DS_Store` decoder.  Byte buffers are
`List Nat` whose elements are byte values (`< 256` for any buffer that
models a real `Vec<u8>`); all numeric fields are `Nat`.  No intermediate
value of the Rust program can reach `2^64`, so plain `Nat` arithmetic
agrees with the `usize` arithmetic of the source (the largest value ever
produced is a 32-bit block shifted left by 8, which is below `2^40`).

Fallible Rust functions returning `Result<_, String>` are embedded with
an explicit error type `DsError` mirroring the format strings of the
source one to one.  Code paths that panic in Rust (the explicit
`panic!` for non-leaf pages, out-of-bounds slicing, out-of-bounds `Vec`
indexing) are embedded as a third outcome `PResult.panicked`, since a
panic aborts the process instead of returning an error value.
-/

/-- `static BYTE_SIZE: usize = 8;` -/
def BYTE_SIZE : Nat := 8

/-- `file_signature` from `DsStoreParser::new`. -/
def file_signature : List Nat :=
  [0x00, 0x00, 0x00, 0x01, 0x42, 0x75, 0x64, 0x31]

/-- `record_terminator` from `DsStoreParser::new` (12 bytes). -/
def record_terminator : List Nat :=
  [0x76, 0x53, 0x72, 0x6e, 0x6c, 0x6f, 0x6e, 0x67, 0x00, 0x00, 0x00, 0x01]

/-- `block_size: 0x04` from `DsStoreParser::new`. -/
def block_size : Nat := 0x04

/-- `root_offset_location: 0x08` from `DsStoreParser::new`. -/
def root_offset_location : Nat := 0x08

/-- `root_offset_location_check: 0x10` from `DsStoreParser::new`. -/
def root_offset_location_check : Nat := 0x10

/-- `index_padding: 0x100` from `DsStoreParser::new`. -/
def index_padding : Nat := 0x100

/-- The error values produced through `Result<_, String>` in the source,
one constructor per distinct format string:
* `signatureMismatch` — "Signature does not match a DS_Store file"
* `outOfRange o` — "Failed to parse block at offset 0x{o}. Offset out of range"
* `inconsistentHeader a b` — "Root block offsets do not match: 0x{a} != 0x{b}"
* `invalidEncoding` — "Root node name contains illegal UTF-8 sequence" -/
inductive DsError where
  | signatureMismatch
  | outOfRange (offset : Nat)
  | inconsistentHeader (rootOffset rootOffsetCheck : Nat)
  | invalidEncoding
deriving DecidableEq

/-- Outcome of a fallible Rust function that may additionally panic:
`ok` and `err` model `Ok`/`Err` of `Result`, while `panicked` models a
Rust panic (which aborts the process rather than returning a value). -/
inductive PResult (α : Type) where
  | ok (val : α)
  | err (e : DsError)
  | panicked (msg : String)

/-- `true` iff the result is an `Err` value returned to the caller. -/
def PResult.is_err {α : Type} : PResult α → Bool
  | .err _ => true
  | _ => false

/-- Message used for the Rust panic raised by out-of-bounds slicing
(`&buf[a..b]` with `b > buf.len()`; the real message also carries the
offending indices). -/
def slice_panic_msg : String := "range end index out of range for slice"

/-- Message used for the Rust panic raised by out-of-bounds `Vec`
indexing (`entry_indices[i]` with `i >= entry_indices.len()`). -/
def index_panic_msg : String := "index out of range"

/-- The `DsStore` struct of the source: a node name (as the list of
decoded Unicode scalar values), child nodes, and `indet_length`. -/
inductive DsStore where
  | mk (name : List Nat) (children : List DsStore) (indet_length : Nat)

/-- Name component of a `DsStore` node. -/
def DsStore.name : DsStore → List Nat
  | .mk n _ _ => n

/-- Children component of a `DsStore` node. -/
def DsStore.children : DsStore → List DsStore
  | .mk _ c _ => c

/-- The Rust slice `&buf[a..b]` (meaningful when `a ≤ b ≤ buf.length`;
the callers below model the panic on `b > buf.length` explicitly before
using it). -/
def list_slice (buf : List Nat) (a b : Nat) : List Nat :=
  (buf.drop a).take (b - a)

/-- `DsStoreParser::block_to_usize`: bounds check, then the loop
`for i in 0..block_size { block ^= buf[offset+i]; block <<= BYTE_SIZE }`
followed by `block >>= BYTE_SIZE`. -/
def block_to_usize (buf : List Nat) (offset : Nat) : Except DsError Nat :=
  if buf.length < offset + block_size then
    .error (.outOfRange offset)
  else
    .ok (((List.range block_size).foldl
      (fun block i => (block ^^^ buf.getD (offset + i) 0) <<< BYTE_SIZE) 0) >>> BYTE_SIZE)

/-- `DsStoreParser::confirm_signature`: length check, then for each
zipped pair a mismatch yields `false`, otherwise `true`. -/
def confirm_signature (buf : List Nat) : Bool :=
  if buf.length < file_signature.length then
    false
  else
    (file_signature.zip buf).all fun p => p.1 == p.2

/-- `DsStoreParser::entry_index_to_entry_data`: pure arithmetic on the
packed allocation entry. -/
def entry_index_to_entry_data (entry_index : Nat) : Nat × Nat :=
  (((entry_index >>> 0x5) <<< 0x5) + block_size, 1 <<< (entry_index &&& 0x1f))

/-- The entry-reading loop of `parse` (lines 102–109): pushes
`block_to_usize(buf, root_offset + block_size + block_size * (i + 1))`
for `i` in `cur..cur + n`. -/
def read_entries_from (buf : List Nat) (root_offset : Nat) :
    Nat → Nat → Except DsError (List Nat)
  | _, 0 => .ok []
  | cur, n + 1 =>
    match block_to_usize buf (root_offset + block_size + block_size * (cur + 1)) with
    | .error e => .error e
    | .ok v =>
      match read_entries_from buf root_offset (cur + 1) n with
      | .error e => .error e
      | .ok vs => .ok (v :: vs)

/-- The entry-reading loop of `parse` started at `i = 0`. -/
def read_entries (buf : List Nat) (root_offset count : Nat) : Except DsError (List Nat) :=
  read_entries_from buf root_offset 0 count

/-- The inner comparison of the terminator scan: Rust zips the 12-byte
`record_terminator` with an 8-byte window, so only the first 8 bytes of
the pattern are ever compared (`zip` truncates to the shorter side). -/
def window_matches (pattern window : List Nat) : Bool :=
  (pattern.zip window).all fun p => p.1 == p.2

/-- Whether the 8-byte window at position `q` matches the terminator
pattern (i.e. its first 8 bytes, by `zip` truncation). -/
def matches_at (buf : List Nat) (q : Nat) : Bool :=
  window_matches record_terminator (list_slice buf q (q + block_size * 2))

/-- The `while !end_of_record` scan of `generate_ds_store_tree`
(lines 193–213), with an explicit iteration budget `fuel`.  One
iteration: if fewer than two blocks remain the function returns early
(`none`); otherwise if the window at `offset` matches, the cursor stops
(`some offset`); otherwise the cursor advances one byte. -/
def scan_aux (buf : List Nat) : Nat → Nat → Option Nat
  | 0, _ => none
  | fuel + 1, offset =>
    if buf.length < offset + block_size * 2 then
      none
    else if matches_at buf offset then
      some offset
    else
      scan_aux buf fuel (offset + 1)

/-- The terminator scan: `buf.length + 1 - offset` iterations always
suffice for the loop to reach one of its two exits (proved below), so
this is the exact denotation of the Rust `while` loop.  `some p` means
the cursor stopped at `p`; `none` means the early return (fewer than
two blocks of buffer remained). -/
def scan_term (buf : List Nat) (offset : Nat) : Option Nat :=
  scan_aux buf (buf.length + 1 - offset) offset

/-- `record_utf16.chunks(2).map(|e| u16::from_be_bytes(...))`: the input
always has even length (it is a slice of length `record_size * 2`), so
the `unwrap` on the chunk conversion never panics; the singleton case
below is dead code kept total. -/
def to_u16_packets : List Nat → List Nat
  | a :: b :: rest => (a * 256 + b) :: to_u16_packets rest
  | _ => []

/-- `String::from_utf16_lossy` on a list of 16-bit code units, returning
the list of Unicode scalar values: surrogate pairs combine, unpaired
surrogates become U+FFFD, everything else passes through. -/
def utf16_lossy : List Nat → List Nat
  | [] => []
  | u :: rest =>
    if u < 0xD800 ∨ 0xDFFF < u then
      u :: utf16_lossy rest
    else if u ≤ 0xDBFF then
      match rest with
      | [] => [0xFFFD]
      | v :: rest2 =>
        if 0xDC00 ≤ v ∧ v ≤ 0xDFFF then
          (0x10000 + (u - 0xD800) * 0x400 + (v - 0xDC00)) :: utf16_lossy rest2
        else
          0xFFFD :: utf16_lossy (v :: rest2)
    else
      0xFFFD :: utf16_lossy rest

/-- One record of the loop body of `generate_ds_store_tree`
(lines 168–191): read `record_size` at `offset + 2 * block_size`, slice
the UTF-16 name bytes at `offset + 3 * block_size` (a Rust slice, which
panics when its end exceeds the buffer length), decode them lossily and
build a childless node. -/
def decode_record (buf : List Nat) (offset : Nat) : PResult DsStore :=
  match block_to_usize buf (offset + block_size * 2) with
  | .error e => .err e
  | .ok record_size =>
    if buf.length < offset + block_size * 3 + record_size * 2 then
      .panicked slice_panic_msg
    else
      .ok (.mk
        (utf16_lossy (to_u16_packets
          (list_slice buf (offset + block_size * 3)
            (offset + block_size * 3 + record_size * 2))))
        [] 4)

/-- The `for _ in 0..record_count` loop of `generate_ds_store_tree`:
decode a record, push it, scan for the terminator from the current
record start; an early scan exit returns the accumulated records
(`Ok(result)`), otherwise the cursor advances one block past the match
position and the loop continues. -/
def decode_records (buf : List Nat) : Nat → Nat → List DsStore → PResult (List DsStore)
  | _, 0, acc => .ok acc
  | offset, n + 1, acc =>
    match decode_record buf offset with
    | .err e => .err e
    | .panicked m => .panicked m
    | .ok node =>
      match scan_term buf offset with
      | none => .ok (acc ++ [node])
      | some p => decode_records buf (p + block_size) n (acc ++ [node])

/-- `DsStoreParser::generate_ds_store_tree`: read the mode block
(non-zero mode hits `panic!("Dev was too lazy for this.")`), read the
record count, then run the record loop. -/
def generate_ds_store_tree (buf : List Nat) (offset : Nat) : PResult (List DsStore) :=
  match block_to_usize buf offset with
  | .error e => .err e
  | .ok mode =>
    if mode ≠ 0 then
      .panicked "Dev was too lazy for this."
    else
      match block_to_usize buf (offset + block_size) with
      | .error e => .err e
      | .ok record_count => decode_records buf offset record_count []

/-- `str::from_utf8` validation, returning the decoded Unicode scalar
values on success and `none` on any ill-formed sequence (overlong
forms, surrogates and values above U+10FFFF are rejected exactly as by
the Rust standard library). -/
def utf8_decode : List Nat → Option (List Nat)
  | [] => some []
  | b0 :: rest =>
    if b0 ≤ 0x7F then
      (utf8_decode rest).map fun cs => b0 :: cs
    else if 0xC2 ≤ b0 ∧ b0 ≤ 0xDF then
      match rest with
      | [] => none
      | b1 :: rest1 =>
        if 0x80 ≤ b1 ∧ b1 ≤ 0xBF then
          (utf8_decode rest1).map fun cs => ((b0 - 0xC0) * 0x40 + (b1 - 0x80)) :: cs
        else none
    else if 0xE0 ≤ b0 ∧ b0 ≤ 0xEF then
      match rest with
      | b1 :: b2 :: rest2 =>
        if (if b0 = 0xE0 then 0xA0 ≤ b1 ∧ b1 ≤ 0xBF
            else if b0 = 0xED then 0x80 ≤ b1 ∧ b1 ≤ 0x9F
            else 0x80 ≤ b1 ∧ b1 ≤ 0xBF) ∧ 0x80 ≤ b2 ∧ b2 ≤ 0xBF then
          (utf8_decode rest2).map fun cs =>
            ((b0 - 0xE0) * 0x1000 + (b1 - 0x80) * 0x40 + (b2 - 0x80)) :: cs
        else none
      | _ => none
    else if 0xF0 ≤ b0 ∧ b0 ≤ 0xF4 then
      match rest with
      | b1 :: b2 :: b3 :: rest3 =>
        if (if b0 = 0xF0 then 0x90 ≤ b1 ∧ b1 ≤ 0xBF
            else if b0 = 0xF4 then 0x80 ≤ b1 ∧ b1 ≤ 0x8F
            else 0x80 ≤ b1 ∧ b1 ≤ 0xBF) ∧ 0x80 ≤ b2 ∧ b2 ≤ 0xBF ∧ 0x80 ≤ b3 ∧ b3 ≤ 0xBF then
          (utf8_decode rest3).map fun cs =>
            ((b0 - 0xF0) * 0x40000 + (b1 - 0x80) * 0x1000 + (b2 - 0x80) * 0x40 + (b3 - 0x80)) :: cs
        else none
      | _ => none
    else none

/-- `DsStoreParser::parse` on an already-loaded buffer (file I/O is
external to the core): signature check, redundant root offsets, entry
count and allocation index, root content offset, root id and root name,
two-level entry resolution, then the page decode.  `Vec` indexing with
an out-of-range index is a Rust panic, modelled like the slice panic. -/
def parse (buf : List Nat) : PResult DsStore :=
  if confirm_signature buf = false then
    .err .signatureMismatch
  else
    match block_to_usize buf root_offset_location with
    | .error e => .err e
    | .ok a =>
      match block_to_usize buf root_offset_location_check with
      | .error e => .err e
      | .ok b =>
        if a + block_size ≠ b + block_size then
          .err (.inconsistentHeader (a + block_size) (b + block_size))
        else
          let root_offset := a + block_size
          match block_to_usize buf root_offset with
          | .error e => .err e
          | .ok entry_count =>
            match read_entries buf root_offset entry_count with
            | .error e => .err e
            | .ok entry_indices =>
              let root_content_offset :=
                root_offset + (block_size * index_padding) % root_offset + 2 * block_size
              match block_to_usize buf (root_content_offset + block_size * 2 + 1) with
              | .error e => .err e
              | .ok root_id =>
                if buf.length < root_content_offset + block_size * 2 + 1 then
                  .panicked slice_panic_msg
                else
                  match utf8_decode (list_slice buf
                      (root_content_offset + block_size + 1)
                      (root_content_offset + block_size * 2 + 1)) with
                  | none => .err .invalidEncoding
                  | some root_name =>
                    if root_id < entry_indices.length then
                      match block_to_usize buf
                          (entry_index_to_entry_data (entry_indices.getD root_id 0)).1 with
                      | .error e => .err e
                      | .ok entry_id =>
                        if entry_id < entry_indices.length then
                          match generate_ds_store_tree buf
                              (entry_index_to_entry_data (entry_indices.getD entry_id 0)).1 with
                          | .err e => .err e
                          | .panicked m => .panicked m
                          | .ok tree => .ok (.mk root_name tree 4)
                        else .panicked index_panic_msg
                    else .panicked index_panic_msg

/-- A hand-constructed 170-byte buffer satisfying every format field:
signature, matching redundant root offsets (root offset 36), a
two-entry allocation index, root name "Root", and one leaf-mode
directory page at offset 132 holding the single record "Desktop"
followed by the 12-byte terminator. -/
def roundtrip_buf : List Nat :=
  [0x00, 0x00, 0x00, 0x01, 0x42, 0x75, 0x64, 0x31] ++
  [0x00, 0x00, 0x00, 0x20] ++
  List.replicate 4 0 ++
  [0x00, 0x00, 0x00, 0x20] ++
  List.replicate 16 0 ++
  [0x00, 0x00, 0x00, 0x02] ++
  List.replicate 4 0 ++
  [0x00, 0x00, 0x00, 0x60] ++
  [0x00, 0x00, 0x00, 0x80] ++
  List.replicate 13 0 ++
  [0x52, 0x6F, 0x6F, 0x74] ++
  [0x00, 0x00, 0x00, 0x00] ++
  List.replicate 27 0 ++
  [0x00, 0x00, 0x00, 0x01] ++
  List.replicate 28 0 ++
  [0x00, 0x00, 0x00, 0x00] ++
  [0x00, 0x00, 0x00, 0x01] ++
  [0x00, 0x00, 0x00, 0x07] ++
  [0x00, 0x44, 0x00, 0x65, 0x00, 0x73, 0x00, 0x6B, 0x00, 0x74, 0x00, 0x6F, 0x00, 0x70] ++
  [0x76, 0x53, 0x72, 0x6E, 0x6C, 0x6F, 0x6E, 0x67, 0x00, 0x00, 0x00, 0x01]

/-- For `b < 2 ^ n`, xor-ing `b` into a value whose low `n` bits are
zero is addition (the accumulation step of `block_to_usize`). -/
theorem two_pow_mul_xor_of_lt (a : Nat) {b n : Nat} (hb : b < 2 ^ n) :
    2 ^ n * a ^^^ b = 2 ^ n * a + b := by
  apply Nat.eq_of_testBit_eq
  intro j
  rw [Nat.testBit_mul_pow_two_add a hb j, Nat.testBit_xor, Nat.testBit_mul_pow_two]
  by_cases hj : j < n
  · simp [hj, Nat.not_le_of_lt hj]
  · have hbj : b < 2 ^ j :=
      lt_of_lt_of_le hb (Nat.pow_le_pow_right (by norm_num) (Nat.le_of_not_lt hj))
    simp [hj, Nat.le_of_not_lt hj, Nat.testBit_lt_two_pow hbj]

/-- Shift-then-xor of a small value is shift-then-add. -/
theorem shiftLeft_xor_add (a : Nat) {b n : Nat} (hb : b < 2 ^ n) :
    a <<< n ^^^ b = a <<< n + b := by
  rw [Nat.shiftLeft_eq, Nat.mul_comm]
  exact two_pow_mul_xor_of_lt a hb

/-- Shift-then-or of a small value is shift-then-add. -/
theorem shiftLeft_or_add (a : Nat) {b n : Nat} (hb : b < 2 ^ n) :
    a <<< n ||| b = a <<< n + b := by
  rw [Nat.shiftLeft_eq, Nat.mul_comm, ← Nat.mul_add_lt_is_or hb a]

/-- Shifting left then right by the same amount is the identity. -/
theorem shiftLeft_shiftRight_cancel (x n : Nat) : (x <<< n) >>> n = x := by
  rw [Nat.shiftLeft_eq, Nat.shiftRight_eq_div_pow]
  exact Nat.mul_div_cancel x (Nat.two_pow_pos n)

/-- The xor/shift accumulation of `block_to_usize` over four bytes
equals the big-endian or-combination of the bytes. -/
theorem byte_combine (g0 g1 g2 g3 : Nat)
    (h1 : g1 < 2 ^ 8) (h2 : g2 < 2 ^ 8) (h3 : g3 < 2 ^ 8) :
    ((((0 ^^^ g0) <<< 8 ^^^ g1) <<< 8 ^^^ g2) <<< 8 ^^^ g3) <<< 8 >>> 8
      = g0 <<< 24 ||| g1 <<< 16 ||| g2 <<< 8 ||| g3 := by
  have h43 : g2 <<< 8 + g3 < 2 ^ 16 := by
    rw [Nat.shiftLeft_eq]
    norm_num at h2 h3 ⊢
    omega
  have h243 : g1 <<< 16 + (g2 <<< 8 + g3) < 2 ^ 24 := by
    rw [Nat.shiftLeft_eq, Nat.shiftLeft_eq]
    norm_num at h1 h2 h3 ⊢
    omega
  rw [Nat.zero_xor, shiftLeft_shiftRight_cancel,
    shiftLeft_xor_add _ h1, shiftLeft_xor_add _ h2, shiftLeft_xor_add _ h3,
    Nat.or_assoc, Nat.or_assoc,
    shiftLeft_or_add _ h3, shiftLeft_or_add _ h43, shiftLeft_or_add _ h243]
  simp only [Nat.shiftLeft_eq]
  norm_num
  omega

/-- An element selected in bounds from a byte buffer is a byte. -/
theorem getD_lt_256 (buf : List Nat) (hbytes : ∀ x ∈ buf, x < 256)
    (k : Nat) (hk : k < buf.length) : buf.getD k 0 < 256 := by
  rw [List.getD_eq_getElem?_getD, List.getElem?_eq_getElem hk]
  exact hbytes _ (List.getElem_mem hk)

/-- **C1.** For the hand-constructed buffer whose 8-byte signature,
redundant header offsets at 0x08 and 0x10, one-entry-per-level
allocation index and single leaf-mode directory page holding the one
record "Desktop" (followed by the 12-byte terminator) satisfy all
format fields, `parse` returns a root node (named "Root") whose
children are exactly one node named "Desktop", and that child has no
children of its own. -/
theorem C1_parse_desktop_round_trip :
    parse roundtrip_buf =
      .ok (.mk [0x52, 0x6F, 0x6F, 0x74]
        [.mk [0x44, 0x65, 0x73, 0x6B, 0x74, 0x6F, 0x70] [] 4] 4) := rfl

/-- **C5.** For every byte buffer and offset: when `offset + 4` fits,
`block_to_usize` returns exactly the big-endian combination
`b0<<24 ||| b1<<16 ||| b2<<8 ||| b3` of the four bytes at `offset`;
and whenever `offset + 4 > buffer length` (including
`offset = buffer length`) it fails with the `OutOfRange` error. -/
theorem C5_block_to_usize_spec (buf : List Nat) (offset : Nat)
    (hbytes : ∀ x ∈ buf, x < 256) :
    (offset + block_size ≤ buf.length →
      block_to_usize buf offset = .ok
        (buf.getD offset 0 <<< 24 ||| buf.getD (offset + 1) 0 <<< 16 |||
          buf.getD (offset + 2) 0 <<< 8 ||| buf.getD (offset + 3) 0)) ∧
    (offset + block_size > buf.length →
      block_to_usize buf offset = .error (.outOfRange offset)) := by
  constructor
  · intro hle
    have hnlt : ¬ buf.length < offset + block_size := Nat.not_lt.mpr hle
    unfold block_to_usize
    rw [if_neg hnlt]
    congr 1
    have hrange : List.range block_size = [0, 1, 2, 3] := rfl
    rw [hrange]
    simp only [List.foldl, Nat.add_zero]
    have hlen : offset + 4 ≤ buf.length := by simpa [block_size] using hle
    have e8 : (2 : Nat) ^ 8 = 256 := by norm_num
    exact byte_combine _ _ _ _
      (e8 ▸ getD_lt_256 buf hbytes _ (by omega))
      (e8 ▸ getD_lt_256 buf hbytes _ (by omega))
      (e8 ▸ getD_lt_256 buf hbytes _ (by omega))
  · intro hgt
    unfold block_to_usize
    rw [if_pos (by omega)]

/-- Witness for C5 at the concrete buffer `[0x12, 0x34, 0x56, 0x78]`:
in-bounds read at offset 0 yields `0x12345678`, and the read at
offset 1 (where `offset + 4` exceeds the length) fails. -/
theorem C5_witness :
    block_to_usize [0x12, 0x34, 0x56, 0x78] 0 = .ok 0x12345678 ∧
    block_to_usize [0x12, 0x34, 0x56, 0x78] 1 = .error (.outOfRange 1) := by
  constructor
  · exact ((C5_block_to_usize_spec [0x12, 0x34, 0x56, 0x78] 0 (by decide)).1
      (by decide)).trans (by rfl)
  · exact (C5_block_to_usize_spec [0x12, 0x34, 0x56, 0x78] 1 (by decide)).2 (by decide)

/-- **C7.** `entry_index_to_entry_data` touches no buffer (it is a pure
function of `entry_index` alone) and returns exactly
`(((entryIndex >> 5) << 5) + 4, 1 << (entryIndex & 0x1F))`; its size
component is always the power of two `2 ^ (entryIndex &&& 0x1F)` with
exponent at most 31, hence lies in `[1, 2^31]`. -/
theorem C7_entry_index_pure_power_of_two (e : Nat) :
    entry_index_to_entry_data e = (((e >>> 5) <<< 5) + 4, 1 <<< (e &&& 0x1f)) ∧
    ∃ k, k ≤ 31 ∧ (entry_index_to_entry_data e).2 = 2 ^ k ∧
      1 ≤ (entry_index_to_entry_data e).2 ∧ (entry_index_to_entry_data e).2 ≤ 2 ^ 31 := by
  refine ⟨rfl, e &&& 0x1f, Nat.and_le_right, ?_, ?_, ?_⟩
  · exact Nat.one_shiftLeft _
  · rw [show (entry_index_to_entry_data e).2 = 1 <<< (e &&& 0x1f) from rfl,
      Nat.one_shiftLeft]
    exact Nat.one_le_two_pow
  · rw [show (entry_index_to_entry_data e).2 = 1 <<< (e &&& 0x1f) from rfl,
      Nat.one_shiftLeft]
    exact Nat.pow_le_pow_right (by norm_num) Nat.and_le_right

/-- **C2 (counterexample).** On the 4-byte buffer `[0,0,0,1]` the mode
block at offset 0 decodes to 1 ≠ 0, yet `generate_ds_store_tree` does
not return an error value to its caller at all: it hits the explicit
`panic!("Dev was too lazy for this.")`, refuting the claim that a
non-zero mode tag fails with an error "returned to the caller like
every other parse error". -/
theorem C2_mode_nonzero_panics_not_error :
    (generate_ds_store_tree [0, 0, 0, 1] 0).is_err = false ∧
    generate_ds_store_tree [0, 0, 0, 1] 0 = .panicked "Dev was too lazy for this." :=
  ⟨rfl, rfl⟩

/-- **C2 (amended).** For every buffer and page offset, if the mode tag
block decoded at the page offset is non-zero, `generate_ds_store_tree`
panics with the message "Dev was too lazy for this." (a process abort,
not an error value returned to the caller), and it does so without
reading the record count or any record data: the conclusion holds for
arbitrary buffer contents past the mode block, including buffers too
short for the record-count read to succeed at all. -/
theorem C2_amended_mode_nonzero_panics (buf : List Nat) (offset mode : Nat)
    (hmode : block_to_usize buf offset = .ok mode) (hne : mode ≠ 0) :
    generate_ds_store_tree buf offset = .panicked "Dev was too lazy for this." := by
  unfold generate_ds_store_tree
  rw [hmode]
  simp [hne]

/-- Witness for the amended C2 on the buffer `[0,0,0,1]`, which ends
immediately after the mode block: the record-count read at offset 4
would fail `OutOfRange`, yet the outcome is the panic — so the record
count is provably never read. -/
theorem C2_amended_witness :
    generate_ds_store_tree [0, 0, 0, 1] 0 = .panicked "Dev was too lazy for this." :=
  C2_amended_mode_nonzero_panics [0, 0, 0, 1] 0 1 rfl (by decide)

/-- **C6.** For every buffer whose two redundant root-offset header
fields (blocks at 0x08 and 0x10, each plus the 4-byte block size)
decode to different values, `parse` fails with the `InconsistentHeader`
error.  The theorem holds for arbitrary buffer contents at and past the
root offset — in particular for buffers where any allocation-index read
(the entry count at the root offset or any entry after it) would be out
of bounds or would change the outcome — so no block of the allocation
index is read before the failure. -/
theorem C6_inconsistent_header (buf : List Nat) (a b : Nat)
    (hsig : confirm_signature buf = true)
    (ha : block_to_usize buf root_offset_location = .ok a)
    (hb : block_to_usize buf root_offset_location_check = .ok b)
    (hne : a + block_size ≠ b + block_size) :
    parse buf = .err (.inconsistentHeader (a + block_size) (b + block_size)) := by
  unfold parse
  rw [hsig, ha, hb]
  simp [hne]

/-- Witness for C6: a 20-byte buffer with a valid signature whose header
fields at 0x08 and 0x10 decode to 1 and 2; `parse` stops with
`InconsistentHeader 5 6` even though the buffer is far too short for
any allocation-index read at offset 5. -/
theorem C6_witness :
    parse ([0x00, 0x00, 0x00, 0x01, 0x42, 0x75, 0x64, 0x31,
      0, 0, 0, 1, 0, 0, 0, 0, 0, 0, 0, 2] : List Nat) =
      .err (.inconsistentHeader 5 6) :=
  C6_inconsistent_header _ 1 2 rfl rfl rfl (by decide)

/-- If the scan stops at `p`, then `p` is at or after the start, the
8-byte window at `p` fits and matches, and no earlier window from the
start on matches. -/
theorem scan_aux_eq_some (buf : List Nat) :
    ∀ fuel offset p, scan_aux buf fuel offset = some p →
      offset ≤ p ∧ p + block_size * 2 ≤ buf.length ∧ matches_at buf p = true ∧
        ∀ q, offset ≤ q → q < p → matches_at buf q = false := by
  intro fuel
  induction fuel with
  | zero => intro offset p h; simp [scan_aux] at h
  | succ n ih =>
    intro offset p h
    rw [scan_aux] at h
    by_cases hlen : buf.length < offset + block_size * 2
    · rw [if_pos hlen] at h; cases h
    · rw [if_neg hlen] at h
      by_cases hm : matches_at buf offset = true
      · rw [if_pos hm] at h
        cases h
        exact ⟨Nat.le_refl _, by omega, hm, fun q hq1 hq2 => by omega⟩
      · rw [if_neg hm] at h
        obtain ⟨h1, h2, h3, h4⟩ := ih (offset + 1) p h
        refine ⟨by omega, h2, h3, fun q hq1 hq2 => ?_⟩
        rcases Nat.eq_or_lt_of_le hq1 with heq | hlt
        · rw [← heq]
          exact Bool.eq_false_iff.mpr hm
        · exact h4 q hlt hq2

/-- If the scan from `offset` reaches a position `p` where fewer than
two blocks of buffer remain, without any earlier window matching, the
loop takes its early exit. -/
theorem scan_aux_eq_none (buf : List Nat) :
    ∀ fuel offset p, offset ≤ p → buf.length < p + block_size * 2 →
      (∀ q, offset ≤ q → q < p → matches_at buf q = false) →
      scan_aux buf fuel offset = none := by
  intro fuel
  induction fuel with
  | zero => intro offset p _ _ _; rfl
  | succ n ih =>
    intro offset p hop hlen hq
    rw [scan_aux]
    by_cases h1 : buf.length < offset + block_size * 2
    · rw [if_pos h1]
    · rw [if_neg h1]
      have hlt : offset < p := by omega
      rw [if_neg (Bool.eq_false_iff.mp (hq offset (Nat.le_refl _) hlt))]
      exact ih (offset + 1) p (by omega) hlen (fun q a b => hq q (by omega) b)

/-- Membership in the window comparison: matching the zip-truncated
pattern is exactly equality with the pattern's first `w.length` bytes. -/
theorem window_matches_iff (w : List Nat) :
    ∀ t : List Nat, w.length ≤ t.length →
      (window_matches t w = true ↔ t.take w.length = w) := by
  induction w with
  | nil => intro t _; simp [window_matches]
  | cons b w' ihw =>
    intro t hlen
    cases t with
    | nil => simp at hlen
    | cons a t' =>
      simp only [window_matches, List.zip_cons_cons, List.all_cons, Bool.and_eq_true,
        beq_iff_eq, List.length_cons, List.take_succ_cons, List.cons.injEq]
      exact and_congr Iff.rfl (ihw t' (by simpa using hlen))

/-- For an in-bounds window position, the boolean window check is
equality of the 8-byte slice with the first 8 bytes of the pattern. -/
theorem matches_at_iff (buf : List Nat) (q : Nat) (h : q + block_size * 2 ≤ buf.length) :
    matches_at buf q = true ↔
      list_slice buf q (q + block_size * 2) = record_terminator.take (block_size * 2) := by
  have hl : (list_slice buf q (q + block_size * 2)).length = block_size * 2 := by
    simp [list_slice, block_size]
    simp [block_size] at h
    omega
  rw [matches_at,
    window_matches_iff _ record_terminator (by rw [hl]; simp [record_terminator, block_size]),
    hl]
  exact eq_comm

/-- **C10.** The byte-by-byte terminator scan of
`generate_ds_store_tree` terminates: `buf.length + 1 - offset`
iterations always suffice for the `while` loop to reach one of its two
exits (each iteration either finds a match, returns early once fewer
than two blocks of buffer remain, or strictly advances the cursor), so
any larger iteration budget computes the same result `scan_term`.  The
remaining structure of the page decode is a `for` loop bounded by the
record count, embedded as structural recursion in `decode_records`,
hence total. -/
theorem C10_scan_terminates_with_bounded_fuel (buf : List Nat) (offset fuel : Nat)
    (h : buf.length + 1 - offset ≤ fuel) :
    scan_aux buf fuel offset = scan_term buf offset := by
  revert h
  induction fuel generalizing offset with
  | zero =>
    intro h
    rw [scan_term, show buf.length + 1 - offset = 0 by omega]
  | succ n ih =>
    intro h
    by_cases h1 : buf.length < offset + block_size * 2
    · have l : scan_aux buf (n + 1) offset = none := by rw [scan_aux, if_pos h1]
      have r : scan_term buf offset = none := by
        rw [scan_term]
        rcases hk : buf.length + 1 - offset with _ | m
        · rfl
        · rw [scan_aux, if_pos h1]
      rw [l, r]
    · by_cases h2 : matches_at buf offset = true
      · have l : scan_aux buf (n + 1) offset = some offset := by
          rw [scan_aux, if_neg h1, if_pos h2]
        have r : scan_term buf offset = some offset := by
          rw [scan_term,
            show buf.length + 1 - offset = (buf.length - offset) + 1 by
              simp [block_size] at h1; omega,
            scan_aux, if_neg h1, if_pos h2]
        rw [l, r]
      · have l : scan_aux buf (n + 1) offset = scan_aux buf n (offset + 1) := by
          rw [scan_aux, if_neg h1, if_neg h2]
        have r : scan_term buf offset = scan_term buf (offset + 1) := by
          rw [scan_term, scan_term,
            show buf.length + 1 - offset = (buf.length + 1 - (offset + 1)) + 1 by
              simp [block_size] at h1; omega,
            scan_aux, if_neg h1, if_neg h2]
        rw [l, r]
        exact ih (offset + 1) (by omega)

/-- Witness for C10: on the empty buffer at offset 0, a budget of 5
iterations (more than `length + 1 - offset = 1`) computes `scan_term`. -/
theorem C10_witness : scan_aux ([] : List Nat) 5 0 = scan_term [] 0 :=
  C10_scan_terminates_with_bounded_fuel [] 0 5 (by decide)

/-- A 12-byte buffer that starts with the first 8 bytes of the
terminator pattern but does not contain the full 12-byte pattern. -/
def short_match_buf : List Nat :=
  [0x76, 0x53, 0x72, 0x6e, 0x6c, 0x6f, 0x6e, 0x67, 0xFF, 0xFF, 0xFF, 0xFF]

/-- **C3 (counterexample).** The scan stops at position 0 of
`short_match_buf` even though the full 12-byte terminator pattern does
not occur there (bytes 8–11 are FF FF FF FF, not 00 00 00 01): the code
compares only the zip-truncated first 8 bytes, refuting the claim that
the cursor stops only where the full 12-byte pattern occurs. -/
theorem C3_scan_stops_without_full_pattern :
    scan_term short_match_buf 0 = some 0 ∧
    list_slice short_match_buf 0 12 ≠ record_terminator :=
  ⟨rfl, by decide⟩

/-- **C3 (amended).** During record decoding, the scan cursor stops
exactly at the first position at or after the current record start
where the first 8 bytes (two blocks) of the terminator pattern
`76 53 72 6E 6C 6F 6E 67` occur as the 8-byte window; the trailing
4 bytes `00 00 00 01` of the pattern are never compared.  The cursor
then advances one 4-byte block past the match position for the next
record. -/
theorem C3_amended_scan_first_window_match (buf : List Nat) (start p : Nat)
    (h : scan_term buf start = some p) :
    start ≤ p ∧ p + block_size * 2 ≤ buf.length ∧
    list_slice buf p (p + block_size * 2) = record_terminator.take (block_size * 2) ∧
    (∀ q, start ≤ q → q < p →
      list_slice buf q (q + block_size * 2) ≠ record_terminator.take (block_size * 2)) ∧
    (∀ n acc node, decode_record buf start = .ok node →
      decode_records buf start (n + 1) acc =
        decode_records buf (p + block_size) n (acc ++ [node])) := by
  rw [scan_term] at h
  obtain ⟨h1, h2, h3, h4⟩ := scan_aux_eq_some buf _ start p h
  refine ⟨h1, h2, (matches_at_iff buf p h2).mp h3, ?_, ?_⟩
  · intro q hq1 hq2 hcontra
    have hq8 : q + block_size * 2 ≤ buf.length := by
      simp [block_size] at h2 ⊢; omega
    have := (matches_at_iff buf q hq8).mpr hcontra
    rw [h4 q hq1 hq2] at this
    cases this
  · intro n acc node hnode
    have hscan : scan_term buf start = some p := by rw [scan_term]; exact h
    simp only [decode_records, hnode, hscan]

/-- A buffer whose first window position matching the 8 terminator
bytes is position 1. -/
def offset_match_buf : List Nat :=
  [0x00, 0x76, 0x53, 0x72, 0x6e, 0x6c, 0x6f, 0x6e, 0x67, 0x00, 0x00, 0x00, 0x01]

/-- Witness for the amended C3 on `offset_match_buf`: the scan from 0
stops at 1, the window there equals the 8 leading terminator bytes, and
the window at the earlier position 0 does not. -/
theorem C3_amended_witness :
    0 ≤ 1 ∧ 1 + block_size * 2 ≤ offset_match_buf.length ∧
    list_slice offset_match_buf 1 (1 + block_size * 2) =
      record_terminator.take (block_size * 2) ∧
    list_slice offset_match_buf 0 (0 + block_size * 2) ≠
      record_terminator.take (block_size * 2) := by
  obtain ⟨h1, h2, h3, h4, _⟩ := C3_amended_scan_first_window_match offset_match_buf 0 1 rfl
  exact ⟨h1, h2, h3, h4 0 (Nat.le_refl 0) (by decide)⟩

/-- **C8.** For every buffer and record-loop state in which the current
record decodes successfully and the terminator scan for it reaches a
cursor position `p` with fewer than 2 blocks (8 bytes) of buffer
remaining, without finding a window match earlier, `decode_records`
returns `Ok` with the records decoded up to and including that record
rather than any error. -/
theorem C8_truncated_scan_returns_partial (buf : List Nat) (offset n : Nat)
    (acc : List DsStore) (node : DsStore) (p : Nat)
    (hnode : decode_record buf offset = .ok node)
    (hop : offset ≤ p) (htrunc : buf.length < p + block_size * 2)
    (hnomatch : ∀ q, offset ≤ q → q < p → matches_at buf q = false) :
    decode_records buf offset (n + 1) acc = .ok (acc ++ [node]) := by
  have hscan : scan_term buf offset = none := by
    rw [scan_term]
    exact scan_aux_eq_none buf _ offset p hop htrunc hnomatch
  simp only [decode_records, hnode, hscan]

/-- Witness for C8: a 12-byte buffer holding a zero-length record; the
scan runs off the end at position 5 (12 < 5 + 8) without a match, and
the one decoded record is returned successfully. -/
theorem C8_witness :
    decode_records [0, 0, 0, 0, 0, 0, 0, 1, 0, 0, 0, 0] 0 1 [] = .ok [.mk [] [] 4] :=
  C8_truncated_scan_returns_partial [0, 0, 0, 0, 0, 0, 0, 1, 0, 0, 0, 0] 0 0 [] (.mk [] [] 4) 5
    rfl (by decide) (by decide)
    (fun q _ hq => by interval_cases q <;> rfl)

/-- **C9.** For every record whose size read succeeds and whose UTF-16
name bytes are in bounds, record decoding succeeds unconditionally —
the name content can never cause an error — and the produced node's
name is the lossy UTF-16 decoding of the name bytes, which replaces
every unpaired surrogate code unit (a high surrogate not followed by a
low surrogate, or a lone low surrogate) by the replacement character
U+FFFD. -/
theorem C9_lossy_utf16_record_decode (buf : List Nat) (offset record_size : Nat)
    (hsz : block_to_usize buf (offset + block_size * 2) = .ok record_size)
    (hbound : offset + block_size * 3 + record_size * 2 ≤ buf.length) :
    decode_record buf offset = .ok (.mk
      (utf16_lossy (to_u16_packets (list_slice buf (offset + block_size * 3)
        (offset + block_size * 3 + record_size * 2)))) [] 4) ∧
    (∀ u v rest, 0xD800 ≤ u → u ≤ 0xDBFF → ¬(0xDC00 ≤ v ∧ v ≤ 0xDFFF) →
      utf16_lossy (u :: v :: rest) = 0xFFFD :: utf16_lossy (v :: rest)) ∧
    (∀ u rest, 0xDC00 ≤ u → u ≤ 0xDFFF →
      utf16_lossy (u :: rest) = 0xFFFD :: utf16_lossy rest) := by
  refine ⟨?_, ?_, ?_⟩
  · simp only [decode_record, hsz]
    rw [if_neg (by omega)]
  · intro u v rest h1 h2 h3
    simp [utf16_lossy, show ¬(u < 0xD800 ∨ 0xDFFF < u) from by omega,
      show u ≤ 0xDBFF from by omega, h3]
  · intro u rest h1 h2
    cases rest with
    | nil =>
      simp [utf16_lossy, show ¬(u < 0xD800 ∨ 0xDFFF < u) from by omega,
        show ¬(u ≤ 0xDBFF) from by omega]
    | cons v rest2 =>
      simp [utf16_lossy, show ¬(u < 0xD800 ∨ 0xDFFF < u) from by omega,
        show ¬(u ≤ 0xDBFF) from by omega]

/-- Witness for C9: a 14-byte buffer whose single record has size 1 and
whose name bytes `D8 00` form an unpaired high surrogate; decoding
succeeds and the node's name is the replacement character U+FFFD. -/
theorem C9_witness :
    decode_record [0, 0, 0, 0, 0, 0, 0, 0, 0, 0, 0, 1, 0xD8, 0x00] 0 =
      .ok (.mk [0xFFFD] [] 4) :=
  (C9_lossy_utf16_record_decode [0, 0, 0, 0, 0, 0, 0, 0, 0, 0, 0, 1, 0xD8, 0x00] 0 1
    rfl (by decide)).1

/-- A 16-byte buffer forming a leaf page with one record whose declared
size 255 demands 510 name bytes starting at offset 12 — far past the
end of the buffer. -/
def oversize_record_buf : List Nat :=
  [0, 0, 0, 0, 0, 0, 0, 1, 0, 0, 0, 0xFF, 0, 0, 0, 0]

/-- **C4.** Evaluating the code at the failing input: when reading a
record's name bytes would exceed the end of the buffer
(`offset + 3 blocks + record_size * 2 > buffer length`), the decode
does *not* return an `OutOfRange` error to its caller — the unchecked
Rust slice `&buf[offset + 12 .. offset + 12 + record_size * 2]` panics
and aborts the process.  (The root-name span read in `parse` is the
half of the claim that does hold: the `root_id` block read at
`root_content_offset + 9` precedes the slice and already bounds it, so
that span failing produces an `OutOfRange` error, never a crash.) -/
theorem C4_record_slice_out_of_bounds_panics :
    generate_ds_store_tree oversize_record_buf 0 = .panicked slice_panic_msg := rfl
